import Mathlib

/-!
Shallow embedding of the react-repo sources.

Part 1 models the dynamic list component of the lists-and-keys file
(addItem, removeItem, updateItem) and the SortableList component
(filterByCategory, sortItems).  Part 2 models the conditional rendering
catalogue.  Part 3 models the class methods of the SOLID principles file,
recording for each method whether it throws and what it logs.
-/

/-- Model of a JavaScript number as it occurs in the modelled code paths:
either an ordinary integer or negative infinity, the value that
Math.max() returns when applied to an empty argument list.  NaN and
positive infinity never arise in the modelled code, so they are omitted. -/
inductive JSNum where
  | negInf : JSNum
  | num : Int → JSNum
deriving DecidableEq

/-- Two-argument maximum of modelled JavaScript numbers, with negative
infinity as the neutral element, exactly as Math.max behaves on these
values. -/
def JSNum.maxJS : JSNum → JSNum → JSNum
  | negInf, b => b
  | num a, negInf => num a
  | num a, num b => num (max a b)

/-- Variadic Math.max(...xs) as the source spreads a list into it: the fold
of the binary maximum starting from negative infinity, which is exactly what
JavaScript returns when the argument list is empty. -/
def mathMax (l : List JSNum) : JSNum :=
  l.foldl JSNum.maxJS JSNum.negInf

/-- Adding 1 to a modelled JavaScript number; negative infinity plus one is
negative infinity. -/
def JSNum.addOne : JSNum → JSNum
  | negInf => negInf
  | num n => num (n + 1)

/-- Interpolation of a modelled JavaScript number into a template literal. -/
def JSNum.toJSString : JSNum → String
  | negInf => "-Infinity"
  | num n => toString n

/-- Boolean strict order on modelled JavaScript numbers (the JavaScript
comparison on numbers, restricted to the values that occur here). -/
def JSNum.jlt : JSNum → JSNum → Bool
  | negInf, num _ => true
  | negInf, negInf => false
  | num _, negInf => false
  | num a, num b => decide (a < b)

/-- Boolean non-strict order on modelled JavaScript numbers. -/
def JSNum.jle : JSNum → JSNum → Bool
  | negInf, _ => true
  | num _, negInf => false
  | num a, num b => decide (a ≤ b)

/-- A record of the DynamicList component, an object of shape id, text. -/
structure Item where
  id : JSNum
  text : String
deriving DecidableEq

/-- Source addItem of the DynamicList component: compute
Math.max(...items.map(item => item.id)) + 1 and append a record with that
identifier and the template text built from it. -/
def addItem (items : List Item) : List Item :=
  let newId := (mathMax (items.map Item.id)).addOne
  items ++ [{ id := newId, text := "Item " ++ newId.toJSString }]

/-- Source removeItem of the DynamicList component:
items.filter(item => item.id !== id). -/
def removeItem (id : JSNum) (items : List Item) : List Item :=
  items.filter (fun item => decide (item.id ≠ id))

/-- Source updateItem of the DynamicList component: map each record to a
copy with replaced text when its identifier matches, otherwise keep it. -/
def updateItem (id : JSNum) (newText : String) (items : List Item) : List Item :=
  items.map (fun item => if item.id = id then { item with text := newText } else item)

/-- Initial state of the DynamicList component in the source. -/
def demoItems : List Item :=
  [{ id := JSNum.num 1, text := "Item 1" }, { id := JSNum.num 2, text := "Item 2" }]

/-- A record of the SortableList component, an object of shape
id, text, category. -/
structure SItem where
  id : Int
  text : String
  category : String
deriving DecidableEq

/-- Source filterByCategory of the SortableList component:
items.filter(item => item.category === category). -/
def filterByCategory (category : String) (items : List SItem) : List SItem :=
  items.filter (fun item => decide (item.category = category))

/-- Source sortItems of the SortableList component: a copy of the items
sorted with the comparator (a, b) => a.text.localeCompare(b.text).
The locale-aware comparator is modelled as a parameter cmp returning an
integer; Array.prototype.sort is modelled by the stable merge sort placing
a before b when cmp of their text fields is at most zero, which is the
ECMAScript guarantee for a consistent comparator. -/
def sortItems (cmp : String → String → Int) (items : List SItem) : List SItem :=
  items.mergeSort (fun a b => decide (cmp a.text b.text ≤ 0))

/-- Initial state of the SortableList component in the source. -/
def demoSItems : List SItem :=
  [{ id := 1, text := "Apple", category := "fruit" },
   { id := 2, text := "Banana", category := "fruit" },
   { id := 3, text := "Carrot", category := "vegetable" }]

/-- One concrete consistent comparator on strings, used to instantiate the
comparator parameter of sortItems in witnesses: the lexicographic order on
strings mapped into the integer answers of localeCompare. -/
def cmpLex (a b : String) : Int :=
  if a ≤ b then -1 else 1

/-- Rendered output structures of the conditional rendering catalogue. -/
inductive Html where
  | h1 : String → Html
  | h2 : String → Html
  | div : List Html → Html

/-- Source GreetingIfStatement; the input is the truthiness of the
isLoggedIn prop. -/
def GreetingIfStatement (isLoggedIn : Bool) : Html :=
  if isLoggedIn then Html.h1 "Welcome back!" else Html.h1 "Please log in."

/-- JavaScript disjunction name || dflt for a prop that is a string or a
nullish value: null, undefined and the empty string are falsy, every other
string is truthy. -/
def jsOrDefault (name : Option String) (dflt : String) : String :=
  match name with
  | none => dflt
  | some s => if s = "" then dflt else s

/-- Source UserName: an h1 holding name || "Guest". -/
def UserName (name : Option String) : Html :=
  Html.h1 (jsOrDefault name "Guest")

/-- Source DashboardIIFE: a div around the immediately invoked branch on the
role prop. -/
def DashboardIIFE (role : String) : Html :=
  Html.div [if role = "admin" then Html.h1 "Welcome, Admin!"
            else if role = "user" then Html.h1 "Welcome, User!"
            else Html.h1 "Please sign in."]

/-- Observable outcome of invoking one method of the SOLID principles file:
either the message of a thrown Error, or the list of lines the method logs
to the console. -/
abbrev MethodOutcome := Except String (List String)

/-- Source class UserBad, method saveToDatabase. -/
def UserBad.saveToDatabase (name : String) : MethodOutcome :=
  Except.ok ["Saving " ++ name ++ " to database"]

/-- Source class UserBad, method generateReport. -/
def UserBad.generateReport (name : String) : MethodOutcome :=
  Except.ok ["Generating report for " ++ name]

/-- Source class UserBad, method sendEmail. -/
def UserBad.sendEmail (name : String) : MethodOutcome :=
  Except.ok ["Sending email to " ++ name]

/-- Source class User, method getName: returns the stored name and performs
no logging and no throwing. -/
def User.getName (name : String) : String := name

/-- Source class UserRepository, method saveUser. -/
def UserRepository.saveUser (user : String) : MethodOutcome :=
  Except.ok ["Saving " ++ User.getName user ++ " to database"]

/-- Source class ReportGenerator, method generateUserReport. -/
def ReportGenerator.generateUserReport (user : String) : MethodOutcome :=
  Except.ok ["Generating report for " ++ User.getName user]

/-- Source class EmailService, method sendEmailToUser. -/
def EmailService.sendEmailToUser (user : String) : MethodOutcome :=
  Except.ok ["Sending email to " ++ User.getName user]

/-- Source class PaymentProcessorBad, method processPayment: branches on the
type tag of the payment and logs nothing when no branch matches. -/
def PaymentProcessorBad.processPayment (tag : String) : MethodOutcome :=
  if tag = "creditCard" then Except.ok ["Processing credit card payment"]
  else if tag = "paypal" then Except.ok ["Processing PayPal payment"]
  else if tag = "bitcoin" then Except.ok ["Processing Bitcoin payment"]
  else Except.ok []

/-- Dynamic class of a payment object: the abstract base class Payment or
one of its three concrete subclasses. -/
inductive PaymentClass where
  | base | creditCard | payPal | bitcoin
deriving DecidableEq

/-- Dynamic dispatch of the process method over the Payment hierarchy.  The
base class throws; each subclass overrides with a log line. -/
def PaymentClass.process : PaymentClass → MethodOutcome
  | base => Except.error "process() method must be implemented"
  | creditCard => Except.ok ["Processing credit card payment"]
  | payPal => Except.ok ["Processing PayPal payment"]
  | bitcoin => Except.ok ["Processing Bitcoin payment"]

/-- Source class PaymentProcessor, method processPayment: delegates to the
process method of the payment it is given. -/
def PaymentProcessor.processPayment (payment : PaymentClass) : MethodOutcome :=
  payment.process

/-- Dynamic class of a bird in the bad LSP example: BirdBad or its subclass
PenguinBad. -/
inductive BirdBadClass where
  | base | penguinBad
deriving DecidableEq

/-- Dynamic dispatch of the fly method over the bad LSP hierarchy: the base
class logs, and the PenguinBad override throws. -/
def BirdBadClass.fly : BirdBadClass → MethodOutcome
  | base => Except.ok ["Flying..."]
  | penguinBad => Except.error "Penguins can\x27t fly!"

/-- Source class Bird, method move. -/
def Bird.move : MethodOutcome := Except.ok ["Moving..."]

/-- Source class FlyingBird, method fly. -/
def FlyingBird.fly : MethodOutcome := Except.ok ["Flying..."]

/-- Source class SwimmingBird, method swim. -/
def SwimmingBird.swim : MethodOutcome := Except.ok ["Swimming..."]

/-- Source class MachineBad, method print: an empty body. -/
def MachineBad.printM : MethodOutcome := Except.ok []

/-- Source class MachineBad, method scan: an empty body. -/
def MachineBad.scan : MethodOutcome := Except.ok []

/-- Source class MachineBad, method fax: an empty body. -/
def MachineBad.fax : MethodOutcome := Except.ok []

/-- Source class MachineBad, method photocopy: an empty body. -/
def MachineBad.photocopy : MethodOutcome := Except.ok []

/-- Source class Printer, method print. -/
def Printer.printM : MethodOutcome := Except.ok ["Printing..."]

/-- Source class Scanner, method scan. -/
def Scanner.scan : MethodOutcome := Except.ok ["Scanning..."]

/-- Source class FaxMachine, method fax. -/
def FaxMachine.fax : MethodOutcome := Except.ok ["Faxing..."]

/-- Source class AllInOnePrinter, method print: delegates to its printer. -/
def AllInOnePrinter.printM : MethodOutcome := Printer.printM

/-- Source class AllInOnePrinter, method scan: delegates to its scanner. -/
def AllInOnePrinter.scan : MethodOutcome := Scanner.scan

/-- Source class AllInOnePrinter, method fax: delegates to its fax machine. -/
def AllInOnePrinter.fax : MethodOutcome := FaxMachine.fax

/-- Source class BasicPrinter: inherits print from Printer unchanged. -/
def BasicPrinter.printM : MethodOutcome := Printer.printM

/-- Source class MySQLDatabaseBad, method save. -/
def MySQLDatabaseBad.save (data : String) : MethodOutcome :=
  Except.ok ["Saving to MySQL database: " ++ data]

/-- Source class UserServiceBad, method saveUser: delegates to the hard
wired MySQLDatabaseBad instance. -/
def UserServiceBad.saveUser (user : String) : MethodOutcome :=
  MySQLDatabaseBad.save user

/-- Dynamic class of a database object: the abstract base class Database or
one of its two concrete subclasses. -/
inductive DatabaseClass where
  | base | mySQL | mongo
deriving DecidableEq

/-- Dynamic dispatch of the save method over the Database hierarchy.  The
base class throws; each subclass overrides with a log line that includes the
interpolated data argument. -/
def DatabaseClass.save : DatabaseClass → String → MethodOutcome
  | base, _ => Except.error "save() method must be implemented"
  | mySQL, data => Except.ok ["Saving to MySQL database: " ++ data]
  | mongo, data => Except.ok ["Saving to MongoDB database: " ++ data]

/-- Source class UserService, method saveUser: delegates to the injected
database. -/
def UserService.saveUser (database : DatabaseClass) (user : String) : MethodOutcome :=
  database.save user

/-- The user object of the example usage at the bottom of the SOLID file. -/
structure JSUser where
  email : String
  slackId : String
deriving DecidableEq

/-- The Task entity of the SOLID file (named JSTask because Lean already has
a type called Task). -/
structure JSTask where
  id : Int
  title : String
  description : String
  assignee : JSUser
  completed : Bool
deriving DecidableEq

/-- Source method Task.complete: sets the completed flag. -/
def JSTask.complete (t : JSTask) : JSTask := { t with completed := true }

/-- Dynamic class of a task repository: the abstract base class
TaskRepository or its concrete subclass MongoTaskRepository. -/
inductive TaskRepositoryClass where
  | base | mongo
deriving DecidableEq

/-- Dynamic dispatch of the save method over the TaskRepository hierarchy. -/
def TaskRepositoryClass.save : TaskRepositoryClass → JSTask → MethodOutcome
  | base, _ => Except.error "Not implemented"
  | mongo, _ => Except.ok ["Saving task to MongoDB"]

/-- Dynamic dispatch of the delete method over the TaskRepository
hierarchy. -/
def TaskRepositoryClass.delete : TaskRepositoryClass → JSTask → MethodOutcome
  | base, _ => Except.error "Not implemented"
  | mongo, _ => Except.ok ["Deleting task from MongoDB"]

/-- Dynamic dispatch of the find method over the TaskRepository hierarchy,
restricted to its observable outcome.  The mongo override additionally
returns a partial object carrying the given id and a sample title, which no
claim depends on. -/
def TaskRepositoryClass.findOutcome : TaskRepositoryClass → Int → MethodOutcome
  | base, _ => Except.error "Not implemented"
  | mongo, _ => Except.ok ["Finding task in MongoDB"]

/-- Dynamic class of a notification service: the abstract base class
NotificationService or one of its two concrete subclasses. -/
inductive NotificationServiceClass where
  | base | email | slack
deriving DecidableEq

/-- Dynamic dispatch of the notify method over the NotificationService
hierarchy. -/
def NotificationServiceClass.notify : NotificationServiceClass → String → JSUser → MethodOutcome
  | base, _, _ => Except.error "Not implemented"
  | email, message, user => Except.ok ["Sending email to " ++ user.email ++ ": " ++ message]
  | slack, message, user => Except.ok ["Sending Slack message to " ++ user.slackId ++ ": " ++ message]

/-- True exactly when the outcome of a method invocation is a thrown
Error. -/
def raisesError : MethodOutcome → Bool
  | Except.error _ => true
  | Except.ok _ => false

/-- The user object built in the example usage of the SOLID file. -/
def sampleUser : JSUser := { email := "user@example.com", slackId := "U123456" }

/-- The task built by the example usage of the SOLID file. -/
def sampleTask : JSTask :=
  { id := 1, title := "Learn SOLID Principles",
    description := "Study and implement SOLID principles in JavaScript",
    assignee := sampleUser, completed := false }

/-- Names of the unoverridden abstract base class methods of the SOLID file,
which are exactly the methods whose body is a single throw of a generic not
implemented Error. -/
def abstractBaseMethods : List String :=
  ["Payment.process", "Database.save", "TaskRepository.save",
   "TaskRepository.delete", "TaskRepository.find", "NotificationService.notify"]

/-- Catalogue of the class methods of the SOLID file and their outcomes.
Parameterised methods are entered at the arguments the example usage in the
file passes them (or at a representative argument when the file never calls
them); every method of the file either always throws or never throws, so
the chosen argument does not affect the raising behaviour.  The two
TaskService delegation methods are omitted: their bodies contain no throw
of their own and only forward to the injected repository and notifier
modelled here. -/
def solidMethods : List (String × MethodOutcome) :=
  [("UserBad.saveToDatabase", UserBad.saveToDatabase "John Doe"),
   ("UserBad.generateReport", UserBad.generateReport "John Doe"),
   ("UserBad.sendEmail", UserBad.sendEmail "John Doe"),
   ("User.getName", Except.ok []),
   ("UserRepository.saveUser", UserRepository.saveUser "John Doe"),
   ("ReportGenerator.generateUserReport", ReportGenerator.generateUserReport "John Doe"),
   ("EmailService.sendEmailToUser", EmailService.sendEmailToUser "John Doe"),
   ("PaymentProcessorBad.processPayment", PaymentProcessorBad.processPayment "creditCard"),
   ("Payment.process", PaymentClass.base.process),
   ("CreditCardPayment.process", PaymentClass.creditCard.process),
   ("PayPalPayment.process", PaymentClass.payPal.process),
   ("BitcoinPayment.process", PaymentClass.bitcoin.process),
   ("PaymentProcessor.processPayment", PaymentProcessor.processPayment PaymentClass.creditCard),
   ("BirdBad.fly", BirdBadClass.base.fly),
   ("PenguinBad.fly", BirdBadClass.penguinBad.fly),
   ("Bird.move", Bird.move),
   ("FlyingBird.fly", FlyingBird.fly),
   ("SwimmingBird.swim", SwimmingBird.swim),
   ("MachineBad.print", MachineBad.printM),
   ("MachineBad.scan", MachineBad.scan),
   ("MachineBad.fax", MachineBad.fax),
   ("MachineBad.photocopy", MachineBad.photocopy),
   ("Printer.print", Printer.printM),
   ("Scanner.scan", Scanner.scan),
   ("FaxMachine.fax", FaxMachine.fax),
   ("AllInOnePrinter.print", AllInOnePrinter.printM),
   ("AllInOnePrinter.scan", AllInOnePrinter.scan),
   ("AllInOnePrinter.fax", AllInOnePrinter.fax),
   ("BasicPrinter.print", BasicPrinter.printM),
   ("MySQLDatabaseBad.save", MySQLDatabaseBad.save "data"),
   ("UserServiceBad.saveUser", UserServiceBad.saveUser "data"),
   ("Database.save", DatabaseClass.base.save "data"),
   ("MySQLDatabase.save", DatabaseClass.mySQL.save "data"),
   ("MongoDatabase.save", DatabaseClass.mongo.save "data"),
   ("UserService.saveUser", UserService.saveUser DatabaseClass.mySQL "data"),
   ("TaskRepository.save", TaskRepositoryClass.base.save sampleTask),
   ("TaskRepository.delete", TaskRepositoryClass.base.delete sampleTask),
   ("TaskRepository.find", TaskRepositoryClass.base.findOutcome 1),
   ("MongoTaskRepository.save", TaskRepositoryClass.mongo.save sampleTask),
   ("MongoTaskRepository.delete", TaskRepositoryClass.mongo.delete sampleTask),
   ("MongoTaskRepository.find", TaskRepositoryClass.mongo.findOutcome 1),
   ("NotificationService.notify", NotificationServiceClass.base.notify "m" sampleUser),
   ("EmailNotificationService.notify", NotificationServiceClass.email.notify "m" sampleUser),
   ("SlackNotificationService.notify", NotificationServiceClass.slack.notify "m" sampleUser),
   ("Task.complete", Except.ok [])]

mutual

/-- Decidable equality of rendered structures, written by hand because the
children of a div are a nested list. -/
def Html.deq : (a b : Html) → Decidable (a = b)
  | Html.h1 s, Html.h1 t => decidable_of_iff (s = t) (by rw [Html.h1.injEq])
  | Html.h1 _, Html.h2 _ => Decidable.isFalse (fun he => Html.noConfusion he)
  | Html.h1 _, Html.div _ => Decidable.isFalse (fun he => Html.noConfusion he)
  | Html.h2 _, Html.h1 _ => Decidable.isFalse (fun he => Html.noConfusion he)
  | Html.h2 s, Html.h2 t => decidable_of_iff (s = t) (by rw [Html.h2.injEq])
  | Html.h2 _, Html.div _ => Decidable.isFalse (fun he => Html.noConfusion he)
  | Html.div _, Html.h1 _ => Decidable.isFalse (fun he => Html.noConfusion he)
  | Html.div _, Html.h2 _ => Decidable.isFalse (fun he => Html.noConfusion he)
  | Html.div as, Html.div bs =>
      haveI := Html.deqList as bs
      decidable_of_iff (as = bs) (by rw [Html.div.injEq])

/-- Decidable equality of lists of rendered structures. -/
def Html.deqList : (as bs : List Html) → Decidable (as = bs)
  | [], [] => Decidable.isTrue rfl
  | [], _ :: _ => Decidable.isFalse (fun he => List.noConfusion he)
  | _ :: _, [] => Decidable.isFalse (fun he => List.noConfusion he)
  | a :: as, b :: bs =>
      haveI := Html.deq a b
      haveI := Html.deqList as bs
      decidable_of_iff (a = b ∧ as = bs) (by rw [List.cons.injEq])

end

instance : DecidableEq Html := Html.deq

/-- Reflexivity of the non-strict order on modelled numbers. -/
theorem JSNum.jle_refl (a : JSNum) : JSNum.jle a a = true := by
  cases a <;> simp [JSNum.jle]

/-- Transitivity of the non-strict order on modelled numbers. -/
theorem JSNum.jle_trans {a b c : JSNum} (hab : JSNum.jle a b = true)
    (hbc : JSNum.jle b c = true) : JSNum.jle a c = true := by
  cases a <;> cases b <;> cases c <;> simp_all [JSNum.jle]
  omega

/-- Negative infinity is the least modelled number. -/
theorem JSNum.jle_negInf {a : JSNum} (h : JSNum.jle a JSNum.negInf = true) :
    a = JSNum.negInf := by
  cases a <;> simp_all [JSNum.jle]

/-- The binary maximum bounds its left argument. -/
theorem JSNum.jle_maxJS_left (a b : JSNum) : JSNum.jle a (JSNum.maxJS a b) = true := by
  cases a <;> cases b <;> simp [JSNum.jle, JSNum.maxJS, le_max_left]

/-- The binary maximum bounds its right argument. -/
theorem JSNum.jle_maxJS_right (a b : JSNum) : JSNum.jle b (JSNum.maxJS a b) = true := by
  cases a <;> cases b <;> simp [JSNum.jle, JSNum.maxJS, le_max_right]

/-- The binary maximum is one of its arguments. -/
theorem JSNum.maxJS_or (a b : JSNum) : JSNum.maxJS a b = a ∨ JSNum.maxJS a b = b := by
  cases a with
  | negInf => right; rfl
  | num x =>
    cases b with
    | negInf => left; rfl
    | num y =>
      rcases le_total x y with h | h
      · right; simp [JSNum.maxJS, max_eq_right h]
      · left; simp [JSNum.maxJS, max_eq_left h]

/-- Folding the binary maximum over a list yields the accumulator or a list
element, bounds the accumulator, and bounds every list element. -/
theorem foldl_maxJS_spec (l : List JSNum) : ∀ acc : JSNum,
    (l.foldl JSNum.maxJS acc = acc ∨ l.foldl JSNum.maxJS acc ∈ l) ∧
    JSNum.jle acc (l.foldl JSNum.maxJS acc) = true ∧
    (∀ x ∈ l, JSNum.jle x (l.foldl JSNum.maxJS acc) = true) := by
  induction l with
  | nil => intro acc; exact ⟨Or.inl rfl, JSNum.jle_refl acc, by simp⟩
  | cons a t ih =>
    intro acc
    have h := ih (JSNum.maxJS acc a)
    have hfold : (a :: t).foldl JSNum.maxJS acc = t.foldl JSNum.maxJS (JSNum.maxJS acc a) := rfl
    refine ⟨?_, ?_, ?_⟩
    · rcases h.1 with heq | hmem
      · rcases JSNum.maxJS_or acc a with h1 | h1
        · left; rw [hfold, heq, h1]
        · right; rw [hfold, heq, h1]; exact List.mem_cons_self a t
      · right; rw [hfold]; exact List.mem_cons_of_mem a hmem
    · rw [hfold]; exact JSNum.jle_trans (JSNum.jle_maxJS_left acc a) h.2.1
    · intro x hx
      rw [hfold]
      rcases List.mem_cons.mp hx with rfl | hx
      · exact JSNum.jle_trans (JSNum.jle_maxJS_right acc x) h.2.1
      · exact h.2.2 x hx

/-- The spread maximum of a list is negative infinity or a list element. -/
theorem mathMax_mem_or (l : List JSNum) : mathMax l = JSNum.negInf ∨ mathMax l ∈ l :=
  (foldl_maxJS_spec l JSNum.negInf).1

/-- The spread maximum of a list bounds every element of the list. -/
theorem mathMax_ub (l : List JSNum) : ∀ x ∈ l, JSNum.jle x (mathMax l) = true :=
  (foldl_maxJS_spec l JSNum.negInf).2.2

/-- On a non-empty list of finite numbers the spread maximum is a finite
number. -/
theorem mathMax_num (l : List JSNum) (hne : l ≠ []) (hfin : ∀ x ∈ l, x ≠ JSNum.negInf) :
    ∃ M : Int, mathMax l = JSNum.num M := by
  rcases mathMax_mem_or l with h | h
  · exfalso
    obtain ⟨x, hx⟩ := List.exists_mem_of_ne_nil l hne
    have hb := mathMax_ub l x hx
    rw [h] at hb
    exact hfin x hx (JSNum.jle_negInf hb)
  · cases hM : mathMax l with
    | negInf => rw [hM] at h; exact absurd rfl (hfin _ h)
    | num M => exact ⟨M, rfl⟩

/-- Updating by identifier never changes the list when no record carries the
identifier. -/
theorem updateItem_absent (id : JSNum) (t : String) :
    ∀ S : List Item, (∀ r ∈ S, r.id ≠ id) → updateItem id t S = S := by
  intro S
  induction S with
  | nil => intro _; rfl
  | cons a l ih =>
    intro h
    have ha : a.id ≠ id := h a (List.mem_cons_self a l)
    have hl : updateItem id t l = l := ih (fun r hr => h r (List.mem_cons_of_mem a hr))
    unfold updateItem at hl ⊢
    simp only [List.map_cons]
    rw [if_neg ha, hl]

/-- Updating by identifier keeps the identifier sequence unchanged. -/
theorem updateItem_map_id (id : JSNum) (t : String) (S : List Item) :
    (updateItem id t S).map Item.id = S.map Item.id := by
  unfold updateItem
  rw [List.map_map]
  apply List.map_congr_left
  intro a _
  by_cases h : a.id = id <;> simp [h]

/-- C1 counterexample: on the non-empty sequence holding the single record
with identifier negative infinity (the record that addItem itself creates
from the empty sequence), addItem appends a record whose identifier equals,
and is not strictly greater than, the existing identifier. -/
theorem addItem_not_monotone_cex :
    addItem [{ id := JSNum.negInf, text := "Item -Infinity" }] =
      [{ id := JSNum.negInf, text := "Item -Infinity" },
       { id := JSNum.negInf, text := "Item -Infinity" }] ∧
    JSNum.jlt JSNum.negInf JSNum.negInf = false := by decide

/-- C1 (amended): on every non-empty sequence of records all of whose
identifiers are finite numbers, addItem appends exactly one record at the
end, keeping all earlier records in order; the appended identifier is one
more than the maximum existing identifier (its predecessor occurs in the
sequence and it strictly bounds every existing identifier), and the
appended text is the derived default built from the new identifier. -/
theorem addItem_spec (S : List Item) (hne : S ≠ [])
    (hfin : ∀ r ∈ S, r.id ≠ JSNum.negInf) :
    ∃ n : Int,
      addItem S = S ++ [{ id := JSNum.num n, text := "Item " ++ toString n }] ∧
      (∃ r ∈ S, r.id = JSNum.num (n - 1)) ∧
      (∀ r ∈ S, JSNum.jlt r.id (JSNum.num n) = true) := by
  have hlne : S.map Item.id ≠ [] := by simpa using hne
  have hlfin : ∀ x ∈ S.map Item.id, x ≠ JSNum.negInf := by
    intro x hx
    obtain ⟨r, hr, rfl⟩ := List.mem_map.mp hx
    exact hfin r hr
  obtain ⟨M, hM⟩ := mathMax_num (S.map Item.id) hlne hlfin
  refine ⟨M + 1, ?_, ?_, ?_⟩
  · unfold addItem
    rw [hM]
    simp [JSNum.addOne, JSNum.toJSString]
  · have hmem : JSNum.num M ∈ S.map Item.id := by
      rcases mathMax_mem_or (S.map Item.id) with h | h
      · rw [hM] at h; exact absurd h (by simp)
      · rw [hM] at h; exact h
    obtain ⟨r, hr, hrid⟩ := List.mem_map.mp hmem
    refine ⟨r, hr, ?_⟩
    rw [hrid]
    norm_num
  · intro r hr
    have h1 : JSNum.jle r.id (JSNum.num M) = true := by
      have hb := mathMax_ub (S.map Item.id) r.id (List.mem_map_of_mem Item.id hr)
      rwa [hM] at hb
    cases hrid : r.id with
    | negInf => exact absurd hrid (hfin r hr)
    | num m =>
      rw [hrid] at h1
      simp only [JSNum.jle, decide_eq_true_eq] at h1
      simp only [JSNum.jlt, decide_eq_true_eq]
      omega

/-- C1 witness: the amended statement applied to the initial state of the
DynamicList component. -/
theorem addItem_spec_witness :
    demoItems ≠ [] ∧ (∀ r ∈ demoItems, r.id ≠ JSNum.negInf) ∧
    ∃ n : Int,
      addItem demoItems = demoItems ++ [{ id := JSNum.num n, text := "Item " ++ toString n }] ∧
      (∃ r ∈ demoItems, r.id = JSNum.num (n - 1)) ∧
      (∀ r ∈ demoItems, JSNum.jlt r.id (JSNum.num n) = true) :=
  ⟨by decide, by decide, addItem_spec demoItems (by decide) (by decide)⟩

/-- C2 counterexample: applied to the empty sequence, addItem does append a
record (so it does not silently leave the state unchanged), but the
identifier of that record is negative infinity, not 1. -/
theorem addItem_empty_cex :
    (addItem []).map Item.id = [JSNum.negInf] ∧ JSNum.negInf ≠ JSNum.num 1 := by decide

/-- C2 (amended): applied to the empty sequence, addItem appends exactly one
record, whose identifier is negative infinity (Math.max of no arguments is
negative infinity and adding 1 leaves it unchanged) and whose text is the
interpolation Item -Infinity; no error is raised. -/
theorem addItem_empty_eq :
    addItem [] = [{ id := JSNum.negInf, text := "Item -Infinity" }] := by decide

/-- C10 counterexample: the single-record sequence whose identifier is
negative infinity (reachable by one addItem on the empty sequence) has
pairwise distinct identifiers, yet after addItem the identifiers are no
longer pairwise distinct. -/
theorem nodup_invariant_cex :
    (([{ id := JSNum.negInf, text := "x" }] : List Item).map Item.id).Nodup ∧
    ¬ ((addItem [{ id := JSNum.negInf, text := "x" }]).map Item.id).Nodup := by decide

/-- C10 (amended): pairwise distinctness of identifiers is preserved by
removeItem, updateItem and sortItems unconditionally, and by addItem
provided every identifier in the sequence is a finite number. -/
theorem nodup_invariant_amended (S : List Item) (hS : (S.map Item.id).Nodup) :
    ((∀ r ∈ S, r.id ≠ JSNum.negInf) → ((addItem S).map Item.id).Nodup) ∧
    (∀ id, ((removeItem id S).map Item.id).Nodup) ∧
    (∀ id t, ((updateItem id t S).map Item.id).Nodup) ∧
    (∀ (T : List SItem) (cmp : String → String → Int), (T.map SItem.id).Nodup →
        ((sortItems cmp T).map SItem.id).Nodup) := by
  refine ⟨?_, ?_, ?_, ?_⟩
  · intro hfin
    rcases eq_or_ne S [] with rfl | hne
    · decide
    · have hlne : S.map Item.id ≠ [] := by simpa using hne
      have hlfin : ∀ x ∈ S.map Item.id, x ≠ JSNum.negInf := by
        intro x hx
        obtain ⟨r, hr, rfl⟩ := List.mem_map.mp hx
        exact hfin r hr
      obtain ⟨M, hM⟩ := mathMax_num (S.map Item.id) hlne hlfin
      have hmap : (addItem S).map Item.id = S.map Item.id ++ [JSNum.num (M + 1)] := by
        unfold addItem
        rw [hM]
        simp [JSNum.addOne]
      have hnotmem : JSNum.num (M + 1) ∉ S.map Item.id := by
        intro hmem
        have hb := mathMax_ub (S.map Item.id) _ hmem
        rw [hM] at hb
        simp only [JSNum.jle, decide_eq_true_eq] at hb
        omega
      rw [hmap, List.nodup_append]
      refine ⟨hS, List.nodup_singleton _, ?_⟩
      intro a ha hb
      rw [List.mem_singleton] at hb
      exact hnotmem (hb ▸ ha)
  · intro id
    unfold removeItem
    exact (List.Sublist.map Item.id (List.filter_sublist S)).nodup hS
  · intro id t
    rw [updateItem_map_id]
    exact hS
  · intro T cmp hT
    have hperm : ((sortItems cmp T).map SItem.id).Perm (T.map SItem.id) :=
      (List.mergeSort_perm T _).map SItem.id
    exact hperm.symm.nodup hT

/-- C10 witness: the amended statement applied to the initial state of the
DynamicList component, read off at the removeItem conjunct. -/
theorem nodup_invariant_witness :
    (demoItems.map Item.id).Nodup ∧ ((removeItem (JSNum.num 1) demoItems).map Item.id).Nodup :=
  ⟨by decide, (nodup_invariant_amended demoItems (by decide)).2.1 (JSNum.num 1)⟩

/-- C3: updateItem preserves the length of the sequence; at every position
the identifier is kept and the text is replaced exactly when the identifier
matches; and when no record matches, the result is the sequence itself. -/
theorem updateItem_spec (id : JSNum) (newText : String) (S : List Item) :
    (updateItem id newText S).length = S.length ∧
    (∀ k (hk : k < S.length) (hk2 : k < (updateItem id newText S).length),
       ((updateItem id newText S).get ⟨k, hk2⟩).id = (S.get ⟨k, hk⟩).id ∧
       ((updateItem id newText S).get ⟨k, hk2⟩).text =
         (if (S.get ⟨k, hk⟩).id = id then newText else (S.get ⟨k, hk⟩).text)) ∧
    ((∀ r ∈ S, r.id ≠ id) → updateItem id newText S = S) := by
  refine ⟨by simp [updateItem], ?_, updateItem_absent id newText S⟩
  intro k hk hk2
  simp only [updateItem, List.get_eq_getElem, List.getElem_map]
  constructor
  · split_ifs <;> rfl
  · split_ifs <;> rfl

/-- C3 witness: updating a missing identifier in the initial state of the
DynamicList component returns the state unchanged. -/
theorem updateItem_spec_witness :
    (∀ r ∈ demoItems, r.id ≠ JSNum.num 3) ∧
    updateItem (JSNum.num 3) "X" demoItems = demoItems :=
  ⟨by decide, (updateItem_spec (JSNum.num 3) "X" demoItems).2.2 (by decide)⟩

/-- C4: removeItem returns a subsequence of the input (so order is kept) in
which no record carries the removed identifier; every record with another
identifier survives with its multiplicity, records with the removed
identifier are gone, and when no record matches, the result is the input
itself, with no error signalled. -/
theorem removeItem_spec (id : JSNum) (S : List Item) :
    (∀ r ∈ removeItem id S, r.id ≠ id) ∧
    (removeItem id S).Sublist S ∧
    (∀ r ∈ S, r.id ≠ id → r ∈ removeItem id S) ∧
    (∀ r : Item, r.id ≠ id → (removeItem id S).count r = S.count r) ∧
    (∀ r : Item, r.id = id → r ∉ removeItem id S) ∧
    ((∀ r ∈ S, r.id ≠ id) → removeItem id S = S) := by
  refine ⟨?_, List.filter_sublist S, ?_, ?_, ?_, ?_⟩
  · intro r hr
    have h := (List.mem_filter.mp hr).2
    simpa using h
  · intro r hr hne
    exact List.mem_filter.mpr ⟨hr, by simpa using hne⟩
  · intro r hne
    exact List.count_filter (by simpa using hne)
  · intro r hre hmem
    have h := (List.mem_filter.mp hmem).2
    simp only [decide_eq_true_eq] at h
    exact h hre
  · intro h
    apply List.filter_eq_self.mpr
    intro a ha
    simpa using h a ha

/-- C4 witness: removing a missing identifier from the initial state of the
DynamicList component returns the state unchanged. -/
theorem removeItem_spec_witness :
    (∀ r ∈ demoItems, r.id ≠ JSNum.num 7) ∧
    removeItem (JSNum.num 7) demoItems = demoItems :=
  ⟨by decide, (removeItem_spec (JSNum.num 7) demoItems).2.2.2.2.2 (by decide)⟩

/-- C5: removing the same identifier twice gives the same sequence as
removing it once. -/
theorem removeItem_idempotent (id : JSNum) (S : List Item) :
    removeItem id (removeItem id S) = removeItem id S := by
  unfold removeItem
  exact List.filter_eq_self.mpr (fun a ha => (List.mem_filter.mp ha).2)

/-- C6: filterByCategory returns a subsequence of the input (so relative
order is kept) in which every record has the requested category; every
matching record of the input survives with its multiplicity, and no record
with a different category appears. -/
theorem filterByCategory_spec (c : String) (S : List SItem) :
    (∀ r ∈ filterByCategory c S, r.category = c) ∧
    (filterByCategory c S).Sublist S ∧
    (∀ r ∈ S, r.category = c → r ∈ filterByCategory c S) ∧
    (∀ r : SItem, r.category = c → (filterByCategory c S).count r = S.count r) ∧
    (∀ r : SItem, r.category ≠ c → r ∉ filterByCategory c S) := by
  refine ⟨?_, List.filter_sublist S, ?_, ?_, ?_⟩
  · intro r hr
    have h := (List.mem_filter.mp hr).2
    simpa using h
  · intro r hr hc
    exact List.mem_filter.mpr ⟨hr, by simpa using hc⟩
  · intro r hc
    exact List.count_filter (by simpa using hc)
  · intro r hc hmem
    exact hc (by simpa using (List.mem_filter.mp hmem).2)

/-- C6 witness: the banana record of the initial SortableList state is kept
by filtering on the fruit category. -/
theorem filterByCategory_spec_witness :
    ({ id := 2, text := "Banana", category := "fruit" } : SItem) ∈
      filterByCategory "fruit" demoSItems :=
  (filterByCategory_spec "fruit" demoSItems).2.2.1
    { id := 2, text := "Banana", category := "fruit" } (by decide) (by decide)

/-- C7: for every consistent comparator (total and transitive in its
non-positive answers), sortItems returns a permutation of the input that is
sorted non-decreasingly under the comparator applied to the text fields;
this new sequence is what replaces the component state. -/
theorem sortItems_spec (cmp : String → String → Int)
    (htrans : ∀ a b c : String, cmp a b ≤ 0 → cmp b c ≤ 0 → cmp a c ≤ 0)
    (htot : ∀ a b : String, cmp a b ≤ 0 ∨ cmp b a ≤ 0)
    (S : List SItem) :
    (sortItems cmp S).Perm S ∧
    (sortItems cmp S).Sorted (fun a b => cmp a.text b.text ≤ 0) := by
  constructor
  · exact List.mergeSort_perm S _
  · have h := @List.sorted_mergeSort SItem
      (fun a b : SItem => decide (cmp a.text b.text ≤ 0))
      (fun a b c hab hbc => by
        simp only [decide_eq_true_eq] at hab hbc ⊢
        exact htrans _ _ _ hab hbc)
      (fun a b => by
        simp only [Bool.or_eq_true, decide_eq_true_eq]
        exact htot _ _)
      S
    unfold sortItems
    exact List.Pairwise.imp (fun hab => by simpa using hab) h

/-- C7 witness: the concrete lexicographic comparator is consistent, and
sorting the initial SortableList state with it yields a sorted permutation
of that state. -/
theorem sortItems_spec_witness :
    (∀ a b c : String, cmpLex a b ≤ 0 → cmpLex b c ≤ 0 → cmpLex a c ≤ 0) ∧
    (∀ a b : String, cmpLex a b ≤ 0 ∨ cmpLex b a ≤ 0) ∧
    (sortItems cmpLex demoSItems).Perm demoSItems ∧
    (sortItems cmpLex demoSItems).Sorted (fun a b => cmpLex a.text b.text ≤ 0) := by
  have htrans : ∀ a b c : String, cmpLex a b ≤ 0 → cmpLex b c ≤ 0 → cmpLex a c ≤ 0 := by
    intro a b c hab hbc
    unfold cmpLex at hab hbc ⊢
    by_cases h1 : a ≤ b
    · by_cases h2 : b ≤ c
      · rw [if_pos (h1.trans h2)]; omega
      · rw [if_neg h2] at hbc; omega
    · rw [if_neg h1] at hab; omega
  have htot : ∀ a b : String, cmpLex a b ≤ 0 ∨ cmpLex b a ≤ 0 := by
    intro a b
    unfold cmpLex
    rcases le_total a b with h | h
    · left; rw [if_pos h]; omega
    · right; rw [if_pos h]; omega
  exact ⟨htrans, htot, (sortItems_spec cmpLex htrans htot demoSItems).1,
         (sortItems_spec cmpLex htrans htot demoSItems).2⟩

/-- C8 counterexample: the catalogue of class methods of the SOLID file
contains a raising method that is not an unoverridden abstract base class
method, namely the fly override of PenguinBad in the bad LSP example, so
the abstract not-implemented throws are not the only raising operations. -/
theorem solid_raising_cex :
    (∃ p ∈ solidMethods, raisesError p.2 = true ∧ p.1 ∉ abstractBaseMethods) ∧
    raisesError BirdBadClass.penguinBad.fly = true ∧
    "PenguinBad.fly" ∉ abstractBaseMethods := by
  refine ⟨⟨("PenguinBad.fly", BirdBadClass.penguinBad.fly), ?_, rfl, by decide⟩, rfl, by decide⟩
  simp [solidMethods]

/-- C8 (amended): within the catalogue of class methods of the SOLID file,
a method raises exactly when it is one of the six unoverridden abstract
base class methods or the deliberately LSP-violating PenguinBad.fly
override; the abstract base class methods raise their generic
not-implemented errors, and every concrete subclass of the four abstract
base classes overrides the abstract methods with non-raising bodies. -/
theorem solid_raising_amended :
    (∀ p ∈ solidMethods, raisesError p.2 = true ↔
        (p.1 ∈ abstractBaseMethods ∨ p.1 = "PenguinBad.fly")) ∧
    PaymentClass.base.process = Except.error "process() method must be implemented" ∧
    (∀ data, DatabaseClass.base.save data = Except.error "save() method must be implemented") ∧
    (∀ t, TaskRepositoryClass.base.save t = Except.error "Not implemented") ∧
    (∀ t, TaskRepositoryClass.base.delete t = Except.error "Not implemented") ∧
    (∀ i, TaskRepositoryClass.base.findOutcome i = Except.error "Not implemented") ∧
    (∀ m u, NotificationServiceClass.base.notify m u = Except.error "Not implemented") ∧
    (∀ p : PaymentClass, p ≠ PaymentClass.base → raisesError p.process = false) ∧
    (∀ d : DatabaseClass, d ≠ DatabaseClass.base → ∀ data, raisesError (d.save data) = false) ∧
    (∀ tr : TaskRepositoryClass, tr ≠ TaskRepositoryClass.base → ∀ t i,
        raisesError (tr.save t) = false ∧ raisesError (tr.delete t) = false ∧
        raisesError (tr.findOutcome i) = false) ∧
    (∀ ns : NotificationServiceClass, ns ≠ NotificationServiceClass.base → ∀ m u,
        raisesError (ns.notify m u) = false) := by
  refine ⟨by decide, rfl, fun _ => rfl, fun _ => rfl, fun _ => rfl, fun _ => rfl,
    fun _ _ => rfl, ?_, ?_, ?_, ?_⟩
  · intro p hp
    cases p
    · exact absurd rfl hp
    all_goals rfl
  · intro d hd dta
    cases d
    · exact absurd rfl hd
    all_goals rfl
  · intro tr htr t i
    cases tr
    · exact absurd rfl htr
    · exact ⟨rfl, rfl, rfl⟩
  · intro ns hns m u
    cases ns
    · exact absurd rfl hns
    all_goals rfl

/-- C8 witness: the amended statement read off at the abstract
Payment.process entry of the catalogue and at its credit card override. -/
theorem solid_raising_witness :
    (("Payment.process", PaymentClass.base.process) ∈ solidMethods) ∧
    (raisesError PaymentClass.base.process = true ↔
      ("Payment.process" ∈ abstractBaseMethods ∨ "Payment.process" = "PenguinBad.fly")) ∧
    raisesError PaymentClass.creditCard.process = false := by
  have hmem : ("Payment.process", PaymentClass.base.process) ∈ solidMethods := by
    simp [solidMethods]
  exact ⟨hmem, solid_raising_amended.1 _ hmem,
    solid_raising_amended.2.2.2.2.2.2.2.1 PaymentClass.creditCard (by decide)⟩

/-- C9: the conditional selection catalogue is a family of pure functions
from the input condition to a fixed finite set of outputs: DashboardIIFE
yields the admin greeting exactly on the role admin, the user greeting
exactly on the role user, and the sign-in prompt on every other role;
GreetingIfStatement yields the welcome heading exactly on a truthy
isLoggedIn and the log-in heading otherwise; UserName renders the given
name when it is truthy and the Guest default otherwise. -/
theorem conditional_catalogue_spec :
    (∀ role : String,
       (DashboardIIFE role = Html.div [Html.h1 "Welcome, Admin!"] ↔ role = "admin") ∧
       (DashboardIIFE role = Html.div [Html.h1 "Welcome, User!"] ↔ role = "user") ∧
       (role ≠ "admin" → role ≠ "user" →
          DashboardIIFE role = Html.div [Html.h1 "Please sign in."])) ∧
    (∀ isLoggedIn : Bool,
       (GreetingIfStatement isLoggedIn = Html.h1 "Welcome back!" ↔ isLoggedIn = true) ∧
       (GreetingIfStatement isLoggedIn = Html.h1 "Please log in." ↔ isLoggedIn = false)) ∧
    (∀ name : Option String,
       (∀ s, name = some s → s ≠ "" → UserName name = Html.h1 s) ∧
       ((name = none ∨ name = some "") → UserName name = Html.h1 "Guest")) := by
  refine ⟨?_, ?_, ?_⟩
  · intro role
    by_cases h1 : role = "admin"
    · subst h1; decide
    · by_cases h2 : role = "user"
      · subst h2; decide
      · have hd : DashboardIIFE role = Html.div [Html.h1 "Please sign in."] := by
          simp [DashboardIIFE, h1, h2]
        refine ⟨?_, ?_, fun _ _ => hd⟩
        · constructor
          · intro h
            rw [hd] at h
            exact absurd h (by decide)
          · intro h
            exact absurd h h1
        · constructor
          · intro h
            rw [hd] at h
            exact absurd h (by decide)
          · intro h
            exact absurd h h2
  · intro isLoggedIn
    cases isLoggedIn <;> decide
  · intro name
    cases name with
    | none => exact ⟨fun s h => Option.noConfusion h, fun _ => by decide⟩
    | some s =>
      refine ⟨?_, ?_⟩
      · intro t ht hne
        have hst : s = t := Option.some.inj ht
        subst hst
        simp [UserName, jsOrDefault, hne]
      · intro h
        rcases h with h | h
        · exact Option.noConfusion h
        · have hs : s = "" := Option.some.inj h
          subst hs
          decide

/-- C9 witness: the catalogue statement read off at a role that is neither
admin nor user. -/
theorem conditional_catalogue_witness :
    DashboardIIFE "guest" = Html.div [Html.h1 "Please sign in."] :=
  (conditional_catalogue_spec.1 "guest").2.2 (by decide) (by decide)
